import Mathlib

/-!
The two helper headers of nvidia-video-codec-sdk-sys.

A verification development for `encoder.h` (the `CONST_VERSION` macro and its
twenty invocations) and `windows.h` (the reduced platform header).

The headers are embedded as what a C translation phase sees: preprocessing
tokens, one function-like macro definition, and file-scope declarations.
The C rules that give these tokens a meaning (argument substitution, the `##`
operator, rescanning of the replacement, parsing of a declaration, conversion
of an initializer to `uint32_t`) are the functions below.
-/

set_option autoImplicit false

namespace NvCodecSys

/-! ## Preprocessing tokens -/

/-- A preprocessing token. Comments and white space are already removed. -/
inductive Token where
  /-- An identifier or keyword, by spelling. -/
  | ident (s : String)
  /-- An integer constant, by value. -/
  | num (n : Nat)
  /-- A punctuator other than `##`, by spelling. -/
  | punct (s : String)
  /-- The token-pasting operator `##`. -/
  | paste
  deriving DecidableEq, Repr

open Token

/-- A function-like macro with one parameter, as written by `#define`. -/
structure FnMacro where
  name : String
  param : String
  body : List Token
  deriving DecidableEq, Repr

/-- Line 6 of `encoder.h`:
`#define CONST_VERSION(struct) const uint32_t struct##_VERSION = struct##_VER`. -/
def CONST_VERSION : FnMacro :=
  { name := "CONST_VERSION"
    param := "struct"
    body := [ident "const", ident "uint32_t", ident "struct", paste, ident "_VERSION",
             punct "=", ident "struct", paste, ident "_VER"] }

/-- Argument substitution for one token of the replacement list: an occurrence
of the parameter is replaced by the argument. An operand of `##` receives the
argument as written (it is not macro-expanded first). -/
def substParam (param : String) (arg : Token) : Token → Token
  | ident x => if x = param then arg else ident x
  | t => t

/-- The `##` operator on two tokens. Two identifiers give the identifier whose
spelling is the concatenation of the two spellings. The other combinations do
not occur in these files and are not given a result. -/
def pasteTokens : Token → Token → Option Token
  | ident a, ident b => some (ident (a ++ b))
  | _, _ => none

/-- Left-to-right processing of a replacement list. `cur` is the token being
built (already substituted); each `## b` pastes the substituted `b` onto it. -/
def expandFrom (param : String) (arg : Token) (cur : Token) :
    List Token → Option (List Token)
  | [] => some [cur]
  | [paste] => none
  | paste :: b :: rest =>
      match pasteTokens cur (substParam param arg b) with
      | some c => expandFrom param arg c rest
      | none => none
  | t :: rest =>
      match expandFrom param arg (substParam param arg t) rest with
      | some r => some (cur :: r)
      | none => none

/-- Expansion of an invocation `m(arg)` of a one-parameter macro. -/
def expand (m : FnMacro) (arg : Token) : Option (List Token) :=
  match m.body with
  | [] => some []
  | paste :: _ => none
  | t :: rest => expandFrom m.param arg (substParam m.param arg t) rest

/-! ## File-scope declarations -/

/-- A file-scope object declaration `[extern] [const] type name [= init];`. -/
structure VarDecl where
  isExtern : Bool
  isConst : Bool
  type : String
  name : String
  init : Option (List Token)
  deriving DecidableEq, Repr

/-- One member of a struct: `type name;`. -/
structure Field where
  type : String
  name : String
  deriving DecidableEq, Repr

/-- A file-scope declaration of one of the two shapes the headers use. -/
inductive Decl where
  | var (d : VarDecl)
  | typedefStruct (tag : String) (fields : List Field) (typeName : String)
  deriving DecidableEq, Repr

/-- The member list of a struct up to and including the closing brace;
returns the members and the tokens after the brace. -/
def parseFields : List Token → Option (List Field × List Token)
  | punct "\x7d" :: rest => some ([], rest)
  | ident ty :: ident nm :: punct ";" :: rest =>
      match parseFields rest with
      | some (fs, r) => some ({ type := ty, name := nm } :: fs, r)
      | none => none
  | _ => none

/-- An optional leading keyword `kw`: whether it is there, and the rest. -/
def takeKeyword (kw : String) : List Token → Bool × List Token
  | ident k :: rest => if k = kw then (true, rest) else (false, ident k :: rest)
  | toks => (false, toks)

/-- The tokens of `type name;` or `type name = init;` after the storage class
and qualifier. The initializer is every token between `=` and the final `;`. -/
def parseDeclarator (ext cst : Bool) : List Token → Option VarDecl
  | [ident ty, ident nm, punct ";"] =>
      some { isExtern := ext, isConst := cst, type := ty, name := nm, init := none }
  | ident ty :: ident nm :: punct "=" :: rest =>
      if rest.getLast? = some (punct ";") ∧ rest.dropLast ≠ [] then
        some { isExtern := ext, isConst := cst, type := ty, name := nm,
               init := some rest.dropLast }
      else none
  | _ => none

/-- Parser for `[extern] [const] type name [= init];`. -/
def parseVar (toks : List Token) : Option VarDecl :=
  let e := takeKeyword "extern" toks
  let c := takeKeyword "const" e.2
  parseDeclarator e.1 c.1 c.2

/-- Parser for one file-scope declaration. -/
def parseDecl : List Token → Option Decl
  | ident "typedef" :: ident "struct" :: ident tag :: punct "\x7b" :: rest =>
      match parseFields rest with
      | some (fs, [ident nm, punct ";"]) => some (Decl.typedefStruct tag fs nm)
      | _ => none
  | toks => (parseVar toks).map Decl.var

/-! ## Source files -/

/-- One logical line of a header after comment removal: a directive, or the
tokens of one file-scope declaration. -/
inductive Line where
  | pragmaOnce
  | includeQuote (file : String)
  | includeAngle (file : String)
  | define (m : FnMacro)
  | text (toks : List Token)
  deriving DecidableEq, Repr

/-- The source text `m(arg);`. -/
def invocation (m arg : String) : Line :=
  Line.text [ident m, punct "(", ident arg, punct ")", punct ";"]

/-- The file `encoder.h`, lines 1 to 27. Line 5 is a comment. -/
def encoder_h : List Line :=
  [ Line.pragmaOnce,
    Line.includeQuote "nvEncodeAPI.h",
    Line.define CONST_VERSION,
    invocation "CONST_VERSION" "NV_ENC_CAPS_PARAM",
    invocation "CONST_VERSION" "NV_ENC_CREATE_INPUT_BUFFER",
    invocation "CONST_VERSION" "NV_ENC_CREATE_BITSTREAM_BUFFER",
    invocation "CONST_VERSION" "NV_ENC_CREATE_MV_BUFFER",
    invocation "CONST_VERSION" "NV_ENC_RC_PARAMS",
    invocation "CONST_VERSION" "NV_ENC_CONFIG",
    invocation "CONST_VERSION" "NV_ENC_INITIALIZE_PARAMS",
    invocation "CONST_VERSION" "NV_ENC_RECONFIGURE_PARAMS",
    invocation "CONST_VERSION" "NV_ENC_PRESET_CONFIG",
    invocation "CONST_VERSION" "NV_ENC_PIC_PARAMS",
    invocation "CONST_VERSION" "NV_ENC_MEONLY_PARAMS",
    invocation "CONST_VERSION" "NV_ENC_LOCK_BITSTREAM",
    invocation "CONST_VERSION" "NV_ENC_LOCK_INPUT_BUFFER",
    invocation "CONST_VERSION" "NV_ENC_MAP_INPUT_RESOURCE",
    invocation "CONST_VERSION" "NV_ENC_REGISTER_RESOURCE",
    invocation "CONST_VERSION" "NV_ENC_STAT",
    invocation "CONST_VERSION" "NV_ENC_SEQUENCE_PARAM_PAYLOAD",
    invocation "CONST_VERSION" "NV_ENC_EVENT_PARAMS",
    invocation "CONST_VERSION" "NV_ENC_OPEN_ENCODE_SESSION_EX_PARAMS",
    invocation "CONST_VERSION" "NV_ENCODE_API_FUNCTION_LIST" ]

/-- The source text `extern const GUID name;`. -/
def externConstGuid (name : String) : Line :=
  Line.text [ident "extern", ident "const", ident "GUID", ident name, punct ";"]

/-- The file `windows.h`, lines 1 to 40. Lines 3, 4, 15, 16 and 40 are comments
(among them the commented-out `extern "C"` block) and carry no token. -/
def windows_h : List Line :=
  [ Line.pragmaOnce,
    Line.includeAngle "guiddef.h",
    Line.text [ident "typedef", ident "struct", ident "tagRECT", punct "\x7b",
               ident "long", ident "left", punct ";",
               ident "long", ident "top", punct ";",
               ident "long", ident "right", punct ";",
               ident "long", ident "bottom", punct ";",
               punct "\x7d", ident "RECT", punct ";"],
    externConstGuid "NV_ENC_CODEC_H264_GUID",
    externConstGuid "NV_ENC_CODEC_HEVC_GUID",
    externConstGuid "NV_ENC_CODEC_PROFILE_AUTOSELECT_GUID",
    externConstGuid "NV_ENC_H264_PROFILE_BASELINE_GUID",
    externConstGuid "NV_ENC_H264_PROFILE_MAIN_GUID",
    externConstGuid "NV_ENC_H264_PROFILE_HIGH_GUID",
    externConstGuid "NV_ENC_H264_PROFILE_HIGH_444_GUID",
    externConstGuid "NV_ENC_H264_PROFILE_STEREO_GUID",
    externConstGuid "NV_ENC_H264_PROFILE_SVC_TEMPORAL_SCALABILTY",
    externConstGuid "NV_ENC_H264_PROFILE_PROGRESSIVE_HIGH_GUID",
    externConstGuid "NV_ENC_H264_PROFILE_CONSTRAINED_HIGH_GUID",
    externConstGuid "NV_ENC_HEVC_PROFILE_MAIN_GUID",
    externConstGuid "NV_ENC_HEVC_PROFILE_MAIN10_GUID",
    externConstGuid "NV_ENC_HEVC_PROFILE_FREXT_GUID",
    externConstGuid "NV_ENC_PRESET_DEFAULT_GUID",
    externConstGuid "NV_ENC_PRESET_HP_GUID",
    externConstGuid "NV_ENC_PRESET_HQ_GUID",
    externConstGuid "NV_ENC_PRESET_BD_GUID",
    externConstGuid "NV_ENC_PRESET_LOW_LATENCY_DEFAULT_GUID",
    externConstGuid "NV_ENC_PRESET_LOW_LATENCY_HQ_GUID",
    externConstGuid "NV_ENC_PRESET_LOW_LATENCY_HP_GUID",
    externConstGuid "NV_ENC_PRESET_LOSSLESS_DEFAULT_GUID",
    externConstGuid "NV_ENC_PRESET_LOSSLESS_HP_GUID" ]

/-! ## Preprocessing of a file -/

/-- The macro definition in force for a name: the latest `#define` wins. -/
def findMacro (name : String) : List FnMacro → Option FnMacro
  | [] => none
  | m :: ms => if m.name = name then some m else findMacro name ms

/-- Macro replacement in one text line: a leading `m(arg)` where `m` is a
defined function-like macro is replaced by its expansion; the rest of the line
follows unchanged. -/
def expandLine (defs : List FnMacro) : List Token → Option (List Token)
  | ident m :: punct "(" :: arg :: punct ")" :: rest =>
      match findMacro m defs with
      | some d => (expand d arg).map (· ++ rest)
      | none => some (ident m :: punct "(" :: arg :: punct ")" :: rest)
  | toks => some toks

/-- The text of a file after the directives are carried out: each `#define`
adds a macro, each text line is macro-expanded. The content brought in by
`#include` is given separately to the later phases. -/
def preprocess (defs : List FnMacro) : List Line → Option (List (List Token))
  | [] => some []
  | Line.define m :: ls => preprocess (m :: defs) ls
  | Line.text toks :: ls =>
      match expandLine defs toks, preprocess defs ls with
      | some e, some r => some (e :: r)
      | _, _ => none
  | _ :: ls => preprocess defs ls

/-- The arguments of the invocations of macro `m` in a file, in file order. -/
def invocationArgs (m : String) : List Line → List String
  | [] => []
  | Line.text (ident f :: punct "(" :: ident a :: punct ")" :: _) :: ls =>
      if f = m then a :: invocationArgs m ls else invocationArgs m ls
  | _ :: ls => invocationArgs m ls

/-- The struct names passed to `CONST_VERSION` in `encoder.h`. -/
def structNames : List String := invocationArgs "CONST_VERSION" encoder_h

/-- The exported name for a struct: `s` followed by `_VERSION`. -/
def exportedName (s : String) : String := s ++ "_VERSION"

/-- The vendor macro the constant of a struct is initialized from: `s_VER`. -/
def versionMacro (s : String) : String := s ++ "_VER"

/-! ## Values: the vendor macros and the initialization of a constant -/

/-- An integer constant expression, the replacement of a vendor version macro
after full macro expansion: a decimal constant, a hexadecimal constant, `-e`,
`a | b`, `a << k` for a constant count `k`, and the cast `(uint32_t)e`. -/
inductive CExpr where
  | lit (n : Nat)
  | hex (n : Nat)
  | neg (e : CExpr)
  | bor (a b : CExpr)
  | shl (a : CExpr) (k : Nat)
  | castU32 (e : CExpr)
  deriving DecidableEq, Repr

/-- The integer types a constant expression can have. `int` is 32 bits wide
and `long long` 64 bits wide; a 64-bit `long` has the range of `long long` and
is not told apart from it. -/
inductive CType where
  | int
  | unsignedInt
  | longLong
  | unsignedLongLong
  deriving DecidableEq, Repr

/-- The width of a type in bits. -/
def CType.bits : CType → Nat
  | CType.int => 32
  | CType.unsignedInt => 32
  | CType.longLong => 64
  | CType.unsignedLongLong => 64

/-- Whether a type is signed. -/
def CType.isSigned : CType → Bool
  | CType.int => true
  | CType.unsignedInt => false
  | CType.longLong => true
  | CType.unsignedLongLong => false

/-- The value of an integer after conversion to a type: reduction modulo
`2 ^ bits` into the range of the type, two-complement for a signed type. -/
def CType.wrap (t : CType) (v : Int) : Int :=
  if t.isSigned then (v + 2 ^ (t.bits - 1)) % 2 ^ t.bits - 2 ^ (t.bits - 1)
  else v % 2 ^ t.bits

/-- The usual arithmetic conversions: the common type of two operands. -/
def CType.common : CType → CType → CType
  | CType.unsignedLongLong, _ => CType.unsignedLongLong
  | _, CType.unsignedLongLong => CType.unsignedLongLong
  | CType.longLong, _ => CType.longLong
  | _, CType.longLong => CType.longLong
  | CType.unsignedInt, _ => CType.unsignedInt
  | _, CType.unsignedInt => CType.unsignedInt
  | CType.int, CType.int => CType.int

/-- The type of an unsuffixed decimal constant: the first of `int`,
`long long` that holds it; a constant beyond both is taken as unsigned. A
constant of `2 ^ 64` or more has no type in C; `CType.wrap` reduces it. -/
def decimalType (n : Nat) : CType :=
  if n < 2 ^ 31 then CType.int
  else if n < 2 ^ 63 then CType.longLong
  else CType.unsignedLongLong

/-- The type of an unsuffixed hexadecimal constant: the first of `int`,
`unsigned int`, `long long`, `unsigned long long` that holds it. A constant of
`2 ^ 64` or more has no type in C; `CType.wrap` reduces it. -/
def hexType (n : Nat) : CType :=
  if n < 2 ^ 31 then CType.int
  else if n < 2 ^ 32 then CType.unsignedInt
  else if n < 2 ^ 63 then CType.longLong
  else CType.unsignedLongLong

/-- A value together with its type. -/
structure CValue where
  type : CType
  value : Int
  deriving DecidableEq, Repr

/-- The bit pattern of a value in a type, as a natural number. -/
def CType.pattern (t : CType) (v : Int) : Nat := (v % 2 ^ t.bits).toNat

/-- Evaluation of a constant expression with the types of C. An operator works
in the type of its promoted operands and the result is reduced to that type:
`-e` and `a << k` keep the type of the operand, `a | b` converts both operands
to their common type and works on the bit patterns, `(uint32_t)e` converts to
`unsigned int`. Where the standard leaves a signed result open (a shift into or
past the sign bit, the negation of the least value) the result is the
two-complement one that compilers fold to. -/
def CExpr.typed : CExpr → CValue
  | CExpr.lit n => { type := decimalType n, value := (decimalType n).wrap n }
  | CExpr.hex n => { type := hexType n, value := (hexType n).wrap n }
  | CExpr.neg e =>
      { type := e.typed.type, value := e.typed.type.wrap (- e.typed.value) }
  | CExpr.bor a b =>
      let t := CType.common a.typed.type b.typed.type
      { type := t,
        value := t.wrap ((t.pattern a.typed.value ||| t.pattern b.typed.value : Nat) : Int) }
  | CExpr.shl a k =>
      { type := a.typed.type, value := a.typed.type.wrap (a.typed.value * 2 ^ k) }
  | CExpr.castU32 e =>
      { type := CType.unsignedInt, value := CType.unsignedInt.wrap e.typed.value }

/-- The integer value a constant expression evaluates to. -/
def CExpr.eval (e : CExpr) : Int := e.typed.value

/-- The object-like macros in force where `encoder.h` is read (those that
`nvEncodeAPI.h` defines): macro name and replacement. -/
abbrev MacroEnv := List (String × CExpr)

/-- What the compiler reports when a translation unit is rejected. -/
inductive Diagnostic where
  | undeclaredIdentifier (name : String)
  | unknownTypeName (name : String)
  | headerNotFound (file : String)
  | noInitializer (name : String)
  | syntaxError
  deriving DecidableEq, Repr

/-- The value of an initializer. An identifier that names a macro is replaced
by the replacement of the macro when the expansion is rescanned; an identifier that
names no macro is left in place, and as nothing declares it the compiler
rejects it. -/
def evalInit (env : MacroEnv) : List Token → Except Diagnostic Int
  | [num n] => Except.ok (n : Int)
  | [ident x] =>
      match env.lookup x with
      | some e => Except.ok e.eval
      | none => Except.error (Diagnostic.undeclaredIdentifier x)
  | _ => Except.error Diagnostic.syntaxError

/-- Conversion of an integer value to `uint32_t`: reduction modulo `2 ^ 32`. -/
def toUInt32 (v : Int) : Nat := (v % 2 ^ 32).toNat

/-- The value an object of the named type holds after initialization with `v`.
The one type the constants use is `uint32_t`, the 32-bit unsigned type of
`<stdint.h>`, which comes in with `nvEncodeAPI.h`. -/
def convertTo (type : String) (v : Int) : Except Diagnostic Nat :=
  if type = "uint32_t" then Except.ok (toUInt32 v)
  else Except.error (Diagnostic.unknownTypeName type)

/-- A defined file-scope constant: what the binding generator sees. -/
structure Constant where
  name : String
  type : String
  isConst : Bool
  value : Nat
  deriving DecidableEq, Repr

/-- The constant a declaration with an initializer defines. -/
def defineConstant (env : MacroEnv) (d : VarDecl) : Except Diagnostic Constant :=
  match d.init with
  | none => Except.error (Diagnostic.noInitializer d.name)
  | some i =>
      match evalInit env i with
      | Except.error err => Except.error err
      | Except.ok v =>
          match convertTo d.type v with
          | Except.error err => Except.error err
          | Except.ok n =>
              Except.ok { name := d.name, type := d.type, isConst := d.isConst, value := n }

/-- Compilation of one preprocessed text line to the constant it defines. -/
def compileTokens (env : MacroEnv) (toks : List Token) : Except Diagnostic Constant :=
  match parseDecl toks with
  | some (Decl.var d) => defineConstant env d
  | _ => Except.error Diagnostic.syntaxError

/-- Compilation of one source text line under the macros `defs`. -/
def compileLine (env : MacroEnv) (defs : List FnMacro) (toks : List Token) :
    Except Diagnostic Constant :=
  match expandLine defs toks with
  | some e => compileTokens env e
  | none => Except.error Diagnostic.syntaxError

/-- The reflector for one struct: the source line `CONST_VERSION(s);` compiled
after line 6, with the vendor macros `env` in force. -/
def reflect (env : MacroEnv) (s : String) : Except Diagnostic Constant :=
  compileLine env [CONST_VERSION]
    [ident "CONST_VERSION", punct "(", ident s, punct ")", punct ";"]

/-- Compilation of every line in order; the first diagnostic stops it. -/
def compileAll (env : MacroEnv) : List (List Token) → Except Diagnostic (List Constant)
  | [] => Except.ok []
  | toks :: rest =>
      match compileTokens env toks with
      | Except.error err => Except.error err
      | Except.ok c =>
          match compileAll env rest with
          | Except.error err => Except.error err
          | Except.ok cs => Except.ok (c :: cs)

/-- The constants `encoder.h` defines when the vendor macros are `env`. -/
def compileEncoder (env : MacroEnv) : Except Diagnostic (List Constant) :=
  match preprocess [] encoder_h with
  | some ls => compileAll env ls
  | none => Except.error Diagnostic.syntaxError

/-! ## Type names: what `windows.h` needs declared -/

/-- Type specifiers that are keywords of the language. -/
def builtinTypes : List String :=
  ["void", "char", "short", "int", "long", "float", "double"]

/-- Whether a type specifier is usable where `known` lists the typedef names
declared so far. -/
def typeKnown (known : List String) (ty : String) : Bool :=
  builtinTypes.contains ty || known.contains ty

/-- The first member whose type is not declared. -/
def firstUnknownField (known : List String) : List Field → Option String
  | [] => none
  | f :: fs => if typeKnown known f.type then firstUnknownField known fs else some f.type

/-- Name lookup for one declaration: fails on a type name that is not
declared before it; returns the typedef names known after it. -/
def checkDecl (known : List String) : Decl → Except Diagnostic (List String)
  | Decl.var d =>
      if typeKnown known d.type then Except.ok known
      else Except.error (Diagnostic.unknownTypeName d.type)
  | Decl.typedefStruct _ fs nm =>
      match firstUnknownField known fs with
      | some ty => Except.error (Diagnostic.unknownTypeName ty)
      | none => Except.ok (nm :: known)

/-- The headers an `#include` can find: for a file name, the typedef names the
file declares, or `none` when the file is not on the include path. -/
abbrev IncludePath := String → Option (List String)

/-- A single pass over a header: directives are carried out, each text line is
expanded, parsed and name-checked against what is declared before it. -/
def parseHeader (path : IncludePath) (defs : List FnMacro) (known : List String) :
    List Line → Except Diagnostic (List Decl)
  | [] => Except.ok []
  | Line.pragmaOnce :: ls => parseHeader path defs known ls
  | Line.includeQuote f :: ls =>
      match path f with
      | some tys => parseHeader path defs (tys ++ known) ls
      | none => Except.error (Diagnostic.headerNotFound f)
  | Line.includeAngle f :: ls =>
      match path f with
      | some tys => parseHeader path defs (tys ++ known) ls
      | none => Except.error (Diagnostic.headerNotFound f)
  | Line.define m :: ls => parseHeader path (m :: defs) known ls
  | Line.text toks :: ls =>
      match expandLine defs toks with
      | none => Except.error Diagnostic.syntaxError
      | some e =>
          match parseDecl e with
          | none => Except.error Diagnostic.syntaxError
          | some d =>
              match checkDecl known d with
              | Except.error err => Except.error err
              | Except.ok k =>
                  match parseHeader path defs k ls with
                  | Except.error err => Except.error err
                  | Except.ok ds => Except.ok (d :: ds)

/-- Every line parsed as one declaration; fails if one of them does not parse. -/
def parseAll : List (List Token) → Option (List Decl)
  | [] => some []
  | toks :: rest =>
      match parseDecl toks, parseAll rest with
      | some d, some ds => some (d :: ds)
      | _, _ => none

/-- The declarations of a file with every `#include` skipped and no name
lookup: what the text of the file itself declares. -/
def ownDecls (lines : List Line) : Option (List Decl) :=
  match preprocess [] lines with
  | some ls => parseAll ls
  | none => none

/-- The typedef names a list of declarations introduces. -/
def typedefNames : List Decl → List String
  | [] => []
  | Decl.typedefStruct _ _ nm :: ds => nm :: typedefNames ds
  | Decl.var _ :: ds => typedefNames ds

/-- The object declarations among a list of declarations. -/
def varDecls : List Decl → List VarDecl
  | [] => []
  | Decl.var d :: ds => d :: varDecls ds
  | Decl.typedefStruct _ _ _ :: ds => varDecls ds

/-- An include path on which no header is found. -/
def noHeaders : IncludePath := fun _ => none

/-- An include path on which `guiddef.h` is found and declares `GUID`. -/
def withGuiddef : IncludePath := fun f => if f = "guiddef.h" then some ["GUID"] else none

/-- The type specifiers a declaration uses. -/
def usedTypes : Decl → List String
  | Decl.var d => [d.type]
  | Decl.typedefStruct _ fs _ => fs.map (fun f => f.type)

/-- The definition of a typedef-ed struct: its tag and members. -/
def findStruct (nm : String) : List Decl → Option (String × List Field)
  | [] => none
  | Decl.typedefStruct tag fs n :: ds => if n = nm then some (tag, fs) else findStruct nm ds
  | Decl.var _ :: ds => findStruct nm ds

/-- The tokens `const uint32_t s_VERSION = s_VER`. -/
def expansionOf (s : String) : List Token :=
  [ident "const", ident "uint32_t", ident (s ++ "_VERSION"), punct "=", ident (s ++ "_VER")]

/-- The declaration `const uint32_t s_VERSION = s_VER;`. -/
def declOf (s : String) : VarDecl :=
  { isExtern := false, isConst := true, type := "uint32_t", name := s ++ "_VERSION",
    init := some [ident (s ++ "_VER")] }

/-- An environment that defines the version macro of every listed struct
except `NV_ENC_STAT`. -/
def envWithoutStat : MacroEnv :=
    [("NV_ENC_CAPS_PARAM_VER", CExpr.lit 1),
     ("NV_ENC_CREATE_INPUT_BUFFER_VER", CExpr.lit 2),
     ("NV_ENC_CREATE_BITSTREAM_BUFFER_VER", CExpr.lit 3),
     ("NV_ENC_CREATE_MV_BUFFER_VER", CExpr.lit 4),
     ("NV_ENC_RC_PARAMS_VER", CExpr.lit 5),
     ("NV_ENC_CONFIG_VER", CExpr.lit 6),
     ("NV_ENC_INITIALIZE_PARAMS_VER", CExpr.lit 7),
     ("NV_ENC_RECONFIGURE_PARAMS_VER", CExpr.lit 8),
     ("NV_ENC_PRESET_CONFIG_VER", CExpr.lit 9),
     ("NV_ENC_PIC_PARAMS_VER", CExpr.lit 10),
     ("NV_ENC_MEONLY_PARAMS_VER", CExpr.lit 11),
     ("NV_ENC_LOCK_BITSTREAM_VER", CExpr.lit 12),
     ("NV_ENC_LOCK_INPUT_BUFFER_VER", CExpr.lit 13),
     ("NV_ENC_MAP_INPUT_RESOURCE_VER", CExpr.lit 14),
     ("NV_ENC_REGISTER_RESOURCE_VER", CExpr.lit 15),
     ("NV_ENC_SEQUENCE_PARAM_PAYLOAD_VER", CExpr.lit 16),
     ("NV_ENC_EVENT_PARAMS_VER", CExpr.lit 17),
     ("NV_ENC_OPEN_ENCODE_SESSION_EX_PARAMS_VER", CExpr.lit 18),
     ("NV_ENCODE_API_FUNCTION_LIST_VER", CExpr.lit 19)]

/-- A version value of the shape the vendor header gives its macros:
`(uint32_t)9 | (ver << 16) | (0x7 << 28)`. -/
def structVersion (ver : Nat) : CExpr :=
  CExpr.bor (CExpr.castU32 (CExpr.lit 9))
    (CExpr.bor (CExpr.shl (CExpr.lit ver) 16) (CExpr.shl (CExpr.hex 0x7) 28))

/-- An environment that defines the version macro of each of the 20 listed
structs and no other. -/
def envListed : MacroEnv :=
  [("NV_ENC_CAPS_PARAM_VER", structVersion 1),
   ("NV_ENC_CREATE_INPUT_BUFFER_VER", structVersion 2),
   ("NV_ENC_CREATE_BITSTREAM_BUFFER_VER", structVersion 3),
   ("NV_ENC_CREATE_MV_BUFFER_VER", structVersion 4),
   ("NV_ENC_RC_PARAMS_VER", structVersion 5),
   ("NV_ENC_CONFIG_VER", structVersion 6),
   ("NV_ENC_INITIALIZE_PARAMS_VER", structVersion 7),
   ("NV_ENC_RECONFIGURE_PARAMS_VER", structVersion 1),
   ("NV_ENC_PRESET_CONFIG_VER", structVersion 2),
   ("NV_ENC_PIC_PARAMS_VER", structVersion 3),
   ("NV_ENC_MEONLY_PARAMS_VER", structVersion 4),
   ("NV_ENC_LOCK_BITSTREAM_VER", structVersion 5),
   ("NV_ENC_LOCK_INPUT_BUFFER_VER", structVersion 6),
   ("NV_ENC_MAP_INPUT_RESOURCE_VER", structVersion 7),
   ("NV_ENC_REGISTER_RESOURCE_VER", structVersion 1),
   ("NV_ENC_STAT_VER", structVersion 2),
   ("NV_ENC_SEQUENCE_PARAM_PAYLOAD_VER", structVersion 3),
   ("NV_ENC_EVENT_PARAMS_VER", structVersion 4),
   ("NV_ENC_OPEN_ENCODE_SESSION_EX_PARAMS_VER", structVersion 5),
   ("NV_ENCODE_API_FUNCTION_LIST_VER", structVersion 6)]

/-- The environment `envListed` with one more version macro, for a struct that
`encoder.h` does not list. -/
def envWithMvc : MacroEnv :=
  envListed ++ [("NV_ENC_PIC_PARAMS_MVC_VER", structVersion 1)]

/-! ## Lemmas on the expansion and on `reflect` -/

theorem expand_CONST_VERSION (s : String) :
    expand CONST_VERSION (ident s) = some (expansionOf s) := by
  simp [expand, CONST_VERSION, expandFrom, substParam, pasteTokens, expansionOf]

theorem parseDecl_expansionOf (s : String) :
    parseDecl (expansionOf s ++ [punct ";"]) = some (Decl.var (declOf s)) := by
  simp [expansionOf, parseDecl, parseVar, takeKeyword, parseDeclarator, declOf]

theorem expandLine_invocation (s : String) :
    expandLine [CONST_VERSION] [ident "CONST_VERSION", punct "(", ident s, punct ")", punct ";"]
      = some (expansionOf s ++ [punct ";"]) := by
  have hname : CONST_VERSION.name = "CONST_VERSION" := rfl
  simp [expandLine, findMacro, hname, expand_CONST_VERSION]

theorem reflect_eq (env : MacroEnv) (s : String) :
    reflect env s =
      match env.lookup (versionMacro s) with
      | some e => Except.ok { name := exportedName s, type := "uint32_t", isConst := true,
                              value := toUInt32 e.eval }
      | none => Except.error (Diagnostic.undeclaredIdentifier (versionMacro s)) := by
  unfold reflect compileLine
  rw [expandLine_invocation]
  simp only [compileTokens, parseDecl_expansionOf, defineConstant, declOf, evalInit, versionMacro,
    exportedName]
  cases h : List.lookup (s ++ "_VER") env <;> simp [convertTo]

theorem toUInt32_cast (v : Int) : ((toUInt32 v : Nat) : Int) = v % 2 ^ 32 := by
  unfold toUInt32
  exact Int.toNat_of_nonneg (Int.emod_nonneg _ (by norm_num))

theorem toUInt32_lt (v : Int) : toUInt32 v < 2 ^ 32 := by
  have h := Int.emod_lt_of_pos v (show (0 : Int) < 2 ^ 32 by norm_num)
  rw [← toUInt32_cast] at h
  exact_mod_cast h

theorem toUInt32_eq_iff (v : Int) : ((toUInt32 v : Nat) : Int) = v ↔ 0 ≤ v ∧ v < 2 ^ 32 := by
  rw [toUInt32_cast]
  constructor
  · intro h
    constructor
    · rw [← h]; exact Int.emod_nonneg _ (by norm_num)
    · rw [← h]; exact Int.emod_lt_of_pos _ (by norm_num)
  · rintro ⟨h0, h1⟩
    exact Int.emod_eq_of_lt h0 h1

theorem append_suffix_cancel (s t u : String) (h : s ++ u = t ++ u) : s = t := by
  have hd := congrArg String.data h
  simp only [String.data_append] at hd
  exact String.ext (List.append_cancel_right hd)

theorem versionMacro_injective : Function.Injective versionMacro :=
  fun s t h => append_suffix_cancel s t "_VER" h

theorem exportedName_injective : Function.Injective exportedName :=
  fun s t h => append_suffix_cancel s t "_VERSION" h

theorem preprocess_encoder_h :
    preprocess [] encoder_h
      = some (structNames.map (fun s => expansionOf s ++ [punct ";"])) := by
  decide

theorem compileTokens_expansionOf (env : MacroEnv) (s : String) :
    compileTokens env (expansionOf s ++ [punct ";"]) = reflect env s := by
  unfold reflect compileLine
  rw [expandLine_invocation]

theorem reflect_ok (env : MacroEnv) (s : String) (c : Constant)
    (h : reflect env s = Except.ok c) :
    c.name = exportedName s ∧ ∃ e, env.lookup (versionMacro s) = some e := by
  rw [reflect_eq] at h
  cases hl : List.lookup (versionMacro s) env with
  | none => rw [hl] at h; exact Except.noConfusion h
  | some e =>
    rw [hl] at h
    have hc := Except.ok.inj h
    exact ⟨by rw [← hc], e, rfl⟩

theorem compileAll_ok_reflect (env : MacroEnv) :
    ∀ (l : List String) (cs : List Constant),
      compileAll env (l.map (fun s => expansionOf s ++ [punct ";"])) = Except.ok cs →
      cs.map (fun c => c.name) = l.map exportedName
      ∧ ∀ s ∈ l, ∃ c, reflect env s = Except.ok c := by
  intro l
  induction l with
  | nil =>
    intro cs h
    simp only [List.map_nil, compileAll] at h
    have hcs := Except.ok.inj h
    subst hcs
    exact ⟨rfl, fun s hs => absurd hs (List.not_mem_nil s)⟩
  | cons a l ih =>
    intro cs h
    simp only [List.map_cons, compileAll, compileTokens_expansionOf] at h
    cases ha : reflect env a with
    | error err => rw [ha] at h; exact Except.noConfusion h
    | ok c =>
      rw [ha] at h
      cases hrest : compileAll env (l.map (fun s => expansionOf s ++ [punct ";"])) with
      | error err => rw [hrest] at h; exact Except.noConfusion h
      | ok cs2 =>
        rw [hrest] at h
        have hcs := Except.ok.inj h
        subst hcs
        obtain ⟨hnames, hall⟩ := ih cs2 hrest
        refine ⟨?_, ?_⟩
        · simp only [List.map_cons, hnames, (reflect_ok env a c ha).1]
        · intro s hs
          rcases List.mem_cons.1 hs with rfl | hmem
          · exact ⟨c, ha⟩
          · exact hall s hmem

theorem typeKnown_of_mem (known : List String) (ty : String) (h : ty ∈ known) :
    typeKnown known ty = true := by
  simp [typeKnown, h]

/-! ## The version-constant reflector (`encoder.h`) -/

/-- C1: for every struct name `s`, the expansion of `CONST_VERSION(s)` is the
token sequence `const uint32_t s_VERSION = s_VER`; followed by the `;` of the
source line it parses as exactly one declaration, const-qualified, of type
`uint32_t`, named `s_VERSION`, with the identifier `s_VER` as initializer.
`encoder.h` has 20 invocations and its text is these 20 declarations. -/
theorem const_version_declaration (s : String) :
    expand CONST_VERSION (ident s)
        = some [ident "const", ident "uint32_t", ident (s ++ "_VERSION"), punct "=",
                ident (s ++ "_VER")]
    ∧ (expand CONST_VERSION (ident s)).bind (fun toks => parseDecl (toks ++ [punct ";"]))
        = some (Decl.var { isExtern := false, isConst := true, type := "uint32_t",
                           name := s ++ "_VERSION", init := some [ident (s ++ "_VER")] })
    ∧ structNames.length = 20
    ∧ ownDecls encoder_h
        = some (structNames.map (fun n =>
            Decl.var { isExtern := false, isConst := true, type := "uint32_t",
                       name := n ++ "_VERSION", init := some [ident (n ++ "_VER")] })) := by
  refine ⟨expand_CONST_VERSION s, ?_, by decide, by decide⟩
  rw [expand_CONST_VERSION]
  exact parseDecl_expansionOf s

/-- C2, as stated, fails: with `NV_ENC_CONFIG_VER` defined as `0x100000020` the
macro evaluates to 4294967328 while `NV_ENC_CONFIG_VERSION` holds 32. -/
theorem version_value_not_preserved :
    "NV_ENC_CONFIG" ∈ structNames
    ∧ List.lookup (versionMacro "NV_ENC_CONFIG")
        [("NV_ENC_CONFIG_VER", CExpr.hex 0x100000020)] = some (CExpr.hex 0x100000020)
    ∧ (CExpr.hex 0x100000020).eval = 4294967328
    ∧ reflect [("NV_ENC_CONFIG_VER", CExpr.hex 0x100000020)] "NV_ENC_CONFIG"
        = Except.ok { name := "NV_ENC_CONFIG_VERSION", type := "uint32_t", isConst := true,
                      value := 32 }
    ∧ ((32 : Nat) : Int) ≠ (CExpr.hex 0x100000020).eval := by
  refine ⟨by decide, by decide, by decide, by rfl, by decide⟩

/-- C2, amended: for every struct `s` (so for each of the 20 of the list) and
every macro environment in which `s_VER` evaluates, by the rules of C, to a
value `v` with `0 ≤ v < 2 ^ 32`, reflecting `s` defines `s_VERSION` and the
value it holds is `v` exactly. -/
theorem version_value_preserved_in_range (env : MacroEnv) (s : String) (e : CExpr) (v : Int)
    (hdef : env.lookup (versionMacro s) = some e) (hv : e.eval = v)
    (h0 : 0 ≤ v) (h1 : v < 2 ^ 32) :
    ∃ c, reflect env s = Except.ok c ∧ c.name = exportedName s ∧ (c.value : Int) = v := by
  refine ⟨{ name := exportedName s, type := "uint32_t", isConst := true,
            value := toUInt32 e.eval }, ?_, rfl, ?_⟩
  · rw [reflect_eq, hdef]
  · rw [hv]; exact (toUInt32_eq_iff v).2 ⟨h0, h1⟩

theorem version_value_preserved_in_range_witness :
    ∃ c, reflect [("NV_ENC_CONFIG_VER", CExpr.bor (structVersion 7) (CExpr.shl (CExpr.lit 1) 31))]
            "NV_ENC_CONFIG" = Except.ok c
      ∧ c.name = exportedName "NV_ENC_CONFIG" ∧ (c.value : Int) = 4026990601 :=
  version_value_preserved_in_range
    [("NV_ENC_CONFIG_VER", CExpr.bor (structVersion 7) (CExpr.shl (CExpr.lit 1) 31))]
    "NV_ENC_CONFIG" (CExpr.bor (structVersion 7) (CExpr.shl (CExpr.lit 1) 31)) 4026990601
    (by decide) (by decide) (by decide) (by decide)

/-- C4: in every macro environment in which `NV_ENC_CONFIG_VER` is defined as
`0x20 | (1<<16)`, reflecting `NV_ENC_CONFIG` yields the constant
`NV_ENC_CONFIG_VERSION`, const-qualified of type `uint32_t`, with value `0x10020`. -/
theorem reflect_nv_enc_config (env : MacroEnv)
    (hdef : env.lookup "NV_ENC_CONFIG_VER"
              = some (CExpr.bor (CExpr.hex 0x20) (CExpr.shl (CExpr.lit 1) 16))) :
    reflect env "NV_ENC_CONFIG"
      = Except.ok { name := "NV_ENC_CONFIG_VERSION", type := "uint32_t", isConst := true,
                    value := 0x10020 } := by
  have hm : versionMacro "NV_ENC_CONFIG" = "NV_ENC_CONFIG_VER" := by decide
  rw [reflect_eq, hm, hdef]
  have hn : exportedName "NV_ENC_CONFIG" = "NV_ENC_CONFIG_VERSION" := by decide
  have hval : toUInt32 (CExpr.bor (CExpr.hex 0x20) (CExpr.shl (CExpr.lit 1) 16)).eval = 0x10020 := by
    decide
  simp only [hn, hval]

theorem reflect_nv_enc_config_witness :
    List.lookup "NV_ENC_CONFIG_VER"
        [("NV_ENC_CAPS_PARAM_VER", CExpr.lit 1),
         ("NV_ENC_CONFIG_VER", CExpr.bor (CExpr.hex 0x20) (CExpr.shl (CExpr.lit 1) 16))]
      = some (CExpr.bor (CExpr.hex 0x20) (CExpr.shl (CExpr.lit 1) 16))
    ∧ reflect
        [("NV_ENC_CAPS_PARAM_VER", CExpr.lit 1),
         ("NV_ENC_CONFIG_VER", CExpr.bor (CExpr.hex 0x20) (CExpr.shl (CExpr.lit 1) 16))]
        "NV_ENC_CONFIG"
      = Except.ok { name := "NV_ENC_CONFIG_VERSION", type := "uint32_t", isConst := true,
                    value := 65568 } :=
  ⟨by decide, reflect_nv_enc_config _ (by decide)⟩

/-- C9: the constant is a `uint32_t`, so for every integer value `v` of the
macro `s_VER` the value stored in `s_VERSION` is `v mod 2 ^ 32`, which is below
`2 ^ 32`; the stored value equals `v` if and only if `0 ≤ v < 2 ^ 32`. -/
theorem stored_value_is_mod_two_pow_32 (env : MacroEnv) (s : String) (e : CExpr) (v : Int)
    (hdef : env.lookup (versionMacro s) = some e) (hv : e.eval = v) :
    ∃ c, reflect env s = Except.ok c
      ∧ (c.value : Int) = v % 2 ^ 32
      ∧ c.value < 2 ^ 32
      ∧ ((c.value : Int) = v ↔ 0 ≤ v ∧ v < 2 ^ 32) := by
  refine ⟨{ name := exportedName s, type := "uint32_t", isConst := true,
            value := toUInt32 e.eval }, ?_, ?_, ?_, ?_⟩
  · rw [reflect_eq, hdef]
  · rw [hv]; exact toUInt32_cast v
  · exact toUInt32_lt _
  · rw [hv]; exact toUInt32_eq_iff v

theorem stored_value_is_mod_two_pow_32_witness :
    ∃ c, reflect [("NV_ENC_PIC_PARAMS_VER", CExpr.hex 0x180000000)]
            "NV_ENC_PIC_PARAMS" = Except.ok c
      ∧ (c.value : Int) = 6442450944 % 2 ^ 32
      ∧ c.value < 2 ^ 32
      ∧ ((c.value : Int) = 6442450944 ↔ (0 : Int) ≤ 6442450944 ∧ (6442450944 : Int) < 2 ^ 32) :=
  stored_value_is_mod_two_pow_32
    [("NV_ENC_PIC_PARAMS_VER", CExpr.hex 0x180000000)]
    "NV_ENC_PIC_PARAMS" (CExpr.hex 0x180000000) 6442450944
    (by decide) (by decide)

/-- C3: for every listed struct `s` and every macro environment that does not
define `s_VER`, reflecting `s` fails: the compiler rejects the identifier
`s_VER` as undeclared (the missing-version-macro condition), a diagnostic that
names `s_VER` and so determines `s`; no constant is defined for `s`, with value
zero or any other, and `encoder.h` as a whole defines no constants. -/
theorem missing_version_macro_fails (env : MacroEnv) (s : String)
    (hs : s ∈ structNames) (hundef : env.lookup (versionMacro s) = none) :
    reflect env s = Except.error (Diagnostic.undeclaredIdentifier (versionMacro s))
    ∧ (∀ c, reflect env s ≠ Except.ok c)
    ∧ (∀ t, Diagnostic.undeclaredIdentifier (versionMacro t)
              = Diagnostic.undeclaredIdentifier (versionMacro s) → t = s)
    ∧ (∀ cs, compileEncoder env ≠ Except.ok cs) := by
  have hfail : reflect env s
      = Except.error (Diagnostic.undeclaredIdentifier (versionMacro s)) := by
    rw [reflect_eq, hundef]
  refine ⟨hfail, ?_, ?_, ?_⟩
  · intro c hc
    rw [hfail] at hc
    exact Except.noConfusion hc
  · intro t ht
    exact versionMacro_injective (Diagnostic.undeclaredIdentifier.inj ht)
  · intro cs hcs
    unfold compileEncoder at hcs
    rw [preprocess_encoder_h] at hcs
    obtain ⟨c, hc⟩ := (compileAll_ok_reflect env structNames cs hcs).2 s hs
    rw [hfail] at hc
    exact Except.noConfusion hc

theorem missing_version_macro_fails_witness :
    "NV_ENC_STAT" ∈ structNames
    ∧ List.lookup (versionMacro "NV_ENC_STAT") envWithoutStat = none
    ∧ compileEncoder envWithoutStat
        = Except.error (Diagnostic.undeclaredIdentifier "NV_ENC_STAT_VER")
    ∧ (reflect envWithoutStat "NV_ENC_STAT"
          = Except.error (Diagnostic.undeclaredIdentifier (versionMacro "NV_ENC_STAT"))
      ∧ (∀ c, reflect envWithoutStat "NV_ENC_STAT" ≠ Except.ok c)
      ∧ (∀ t, Diagnostic.undeclaredIdentifier (versionMacro t)
                = Diagnostic.undeclaredIdentifier (versionMacro "NV_ENC_STAT") → t = "NV_ENC_STAT")
      ∧ (∀ cs, compileEncoder envWithoutStat ≠ Except.ok cs)) :=
  ⟨by decide, by decide, by rfl,
    missing_version_macro_fails envWithoutStat "NV_ENC_STAT" (by decide) (by decide)⟩

/-- C10: the map from a struct name `s` to the exported name `s_VERSION` is
injective, the 20 names passed to `CONST_VERSION` in `encoder.h` are pairwise
distinct, and so the declarations of `encoder.h` are 20 constants with pairwise
distinct names: no file-scope constant is defined twice. -/
theorem exported_names_distinct :
    Function.Injective exportedName
    ∧ structNames.length = 20
    ∧ structNames.Nodup
    ∧ (ownDecls encoder_h).map (fun ds => (varDecls ds).map (fun d => d.name))
        = some (structNames.map exportedName)
    ∧ (ownDecls encoder_h).map List.length = some 20
    ∧ (structNames.map exportedName).Nodup := by
  refine ⟨exportedName_injective, by decide, by decide, by decide, by decide, ?_⟩
  exact List.Nodup.map exportedName_injective (by decide)

/-- C8, as stated, fails: against a vendor header that defines the 20 listed
version macros and also `NV_ENC_PIC_PARAMS_MVC_VER`, `encoder.h` compiles and
defines its 20 constants, none of them for `NV_ENC_PIC_PARAMS_MVC`, a struct
that has a version macro and is not in the list. -/
theorem version_macro_without_constant :
    (compileEncoder envWithMvc).toOption.map (fun cs => cs.map (fun c => c.name))
        = some (structNames.map exportedName)
    ∧ List.lookup (versionMacro "NV_ENC_PIC_PARAMS_MVC") envWithMvc = some (structVersion 1)
    ∧ "NV_ENC_PIC_PARAMS_MVC" ∉ structNames
    ∧ exportedName "NV_ENC_PIC_PARAMS_MVC" ∉ structNames.map exportedName := by
  refine ⟨by rfl, by decide, by decide, by decide⟩

/-- C8, amended: whenever `encoder.h` compiles against a vendor header, the
constants it defines are exactly the 20 `<name>_VERSION` of the listed names, in
order, and the header defines `<name>_VER` for every listed name: the covered
set is contained in the set of structs with a version macro. -/
theorem reflected_names_have_version_macros (env : MacroEnv) (cs : List Constant)
    (hok : compileEncoder env = Except.ok cs) :
    cs.map (fun c => c.name) = structNames.map exportedName
    ∧ cs.length = 20
    ∧ (∀ s ∈ structNames, ∃ e, env.lookup (versionMacro s) = some e) := by
  unfold compileEncoder at hok
  rw [preprocess_encoder_h] at hok
  obtain ⟨hnames, hall⟩ := compileAll_ok_reflect env structNames cs hok
  refine ⟨hnames, ?_, ?_⟩
  · have hlen := congrArg List.length hnames
    simp only [List.length_map] at hlen
    rw [hlen]
    decide
  · intro s hs
    obtain ⟨c, hc⟩ := hall s hs
    exact (reflect_ok env s c hc).2

theorem reflected_names_have_version_macros_witness :
    ∃ cs, compileEncoder envListed = Except.ok cs
      ∧ (cs.map (fun c => c.name) = structNames.map exportedName
        ∧ cs.length = 20
        ∧ (∀ s ∈ structNames, ∃ e, List.lookup (versionMacro s) envListed = some e)) :=
  ⟨_, rfl, reflected_names_have_version_macros envListed _ rfl⟩

/-! ## The platform stand-in (`windows.h`) -/

/-- C5: the value symbols `windows.h` declares are 23 objects, the `NV_ENC_*`
GUID constants of lines 17 to 39; each is declared `extern`, const-qualified,
of type `GUID`, with no initializer. No file-scope declaration of the file
carries an initializer. -/
theorem guid_constants_extern_only :
    ∃ ds, ownDecls windows_h = some ds
      ∧ (varDecls ds).map (fun d => d.name)
          = ["NV_ENC_CODEC_H264_GUID",
           "NV_ENC_CODEC_HEVC_GUID",
           "NV_ENC_CODEC_PROFILE_AUTOSELECT_GUID",
           "NV_ENC_H264_PROFILE_BASELINE_GUID",
           "NV_ENC_H264_PROFILE_MAIN_GUID",
           "NV_ENC_H264_PROFILE_HIGH_GUID",
           "NV_ENC_H264_PROFILE_HIGH_444_GUID",
           "NV_ENC_H264_PROFILE_STEREO_GUID",
           "NV_ENC_H264_PROFILE_SVC_TEMPORAL_SCALABILTY",
           "NV_ENC_H264_PROFILE_PROGRESSIVE_HIGH_GUID",
           "NV_ENC_H264_PROFILE_CONSTRAINED_HIGH_GUID",
           "NV_ENC_HEVC_PROFILE_MAIN_GUID",
           "NV_ENC_HEVC_PROFILE_MAIN10_GUID",
           "NV_ENC_HEVC_PROFILE_FREXT_GUID",
           "NV_ENC_PRESET_DEFAULT_GUID",
           "NV_ENC_PRESET_HP_GUID",
           "NV_ENC_PRESET_HQ_GUID",
           "NV_ENC_PRESET_BD_GUID",
           "NV_ENC_PRESET_LOW_LATENCY_DEFAULT_GUID",
           "NV_ENC_PRESET_LOW_LATENCY_HQ_GUID",
           "NV_ENC_PRESET_LOW_LATENCY_HP_GUID",
           "NV_ENC_PRESET_LOSSLESS_DEFAULT_GUID",
           "NV_ENC_PRESET_LOSSLESS_HP_GUID"]
      ∧ (varDecls ds).length = 23
      ∧ (∀ d ∈ varDecls ds,
          d.isExtern = true ∧ d.isConst = true ∧ d.type = "GUID" ∧ d.init = none)
      ∧ ds.length = 1 + (varDecls ds).length := by
  refine ⟨_, rfl, ?_, ?_, ?_, ?_⟩ <;> decide

/-- C7: `windows.h` defines `RECT` as `struct tagRECT` with exactly four
members, `left`, `top`, `right`, `bottom` in this order, each of type `long`. -/
theorem rect_four_long_fields :
    ∃ ds fields, ownDecls windows_h = some ds
      ∧ findStruct "RECT" ds = some ("tagRECT", fields)
      ∧ fields.map (fun f => f.name) = ["left", "top", "right", "bottom"]
      ∧ fields.length = 4
      ∧ (∀ f ∈ fields, f.type = "long") := by
  refine ⟨_, _, rfl, rfl, ?_, ?_, ?_⟩ <;> decide

/-- C6, as stated, fails: `windows.h` does not declare `GUID` itself. Its own
typedef names are `RECT` alone while all 23 object declarations use `GUID`;
line 6 includes `<guiddef.h>` for it. Where no platform header is found the
include is rejected, and where the include contributes nothing the first
`extern` declaration is rejected for the unknown type name `GUID`. -/
theorem standin_does_not_declare_guid :
    parseHeader noHeaders [] [] windows_h
        = Except.error (Diagnostic.headerNotFound "guiddef.h")
    ∧ parseHeader (fun _ => some []) [] [] windows_h
        = Except.error (Diagnostic.unknownTypeName "GUID")
    ∧ (ownDecls windows_h).map typedefNames = some ["RECT"]
    ∧ "GUID" ∉ builtinTypes
    ∧ (ownDecls windows_h).map (fun ds => (varDecls ds).map (fun d => usedTypes (Decl.var d)))
        = some (List.replicate 23 ["GUID"]) := by
  refine ⟨by rfl, by rfl, by decide, by decide, by decide⟩

/-- C6, amended: the member types of `RECT` are the builtin `long`, and the one
type identifier the 23 `extern` declarations use, `GUID`, is supplied by the
included `<guiddef.h>`: on every include path on which `guiddef.h` is found and
declares `GUID`, `windows.h` parses with no undeclared-identifier error, to
exactly the declarations of its own text. -/
theorem standin_parses_given_guiddef (path : IncludePath) (tys : List String)
    (hfound : path "guiddef.h" = some tys) (hguid : "GUID" ∈ tys) :
    ∃ ds, parseHeader path [] [] windows_h = Except.ok ds
      ∧ ownDecls windows_h = some ds
      ∧ (∀ d ∈ ds, ∀ t ∈ usedTypes d, t ∈ builtinTypes ∨ t ∈ tys) := by
  have hparse : parseHeader path [] [] windows_h
      = Except.ok ((ownDecls windows_h).getD []) := by
    have hrect : typeKnown ("RECT" :: tys) "GUID" = true :=
      typeKnown_of_mem _ _ (by simp [hguid])
    have hlong : typeKnown tys "long" = true := by
      simp [typeKnown, builtinTypes]
    simp [windows_h, parseHeader, hfound, expandLine, externConstGuid, parseDecl, parseVar,
      takeKeyword, parseDeclarator, parseFields, checkDecl, firstUnknownField, hrect, hlong]
    decide
  refine ⟨_, hparse, by decide, ?_⟩
  have hused : ∀ d ∈ (ownDecls windows_h).getD [], ∀ t ∈ usedTypes d,
      t ∈ builtinTypes ∨ t = "GUID" := by decide
  intro d hd t ht
  rcases hused d hd t ht with hb | rfl
  · exact Or.inl hb
  · exact Or.inr hguid

theorem standin_parses_given_guiddef_witness :
    withGuiddef "guiddef.h" = some ["GUID"]
    ∧ "GUID" ∈ ["GUID"]
    ∧ ∃ ds, parseHeader withGuiddef [] [] windows_h = Except.ok ds
        ∧ ownDecls windows_h = some ds
        ∧ (∀ d ∈ ds, ∀ t ∈ usedTypes d, t ∈ builtinTypes ∨ t ∈ ["GUID"]) :=
  ⟨by decide, by decide,
    standin_parses_given_guiddef withGuiddef ["GUID"] (by decide) (by decide)⟩

end NvCodecSys
